import Mathlib

/-!
Shallow embedding of `larsim/IonizationScintillation/ISCalculationSeparate.cxx`
(namespace `larg4`), the calculator of ionization electrons and scintillation
photons for one energy deposit.  C++ `double`/`float` values are modelled as
real numbers; the external services (`detinfo::LArProperties`,
`detinfo::DetectorProperties`, `sim::LArG4Parameters`,
`spacecharge::SpaceCharge`) are modelled as records of the queries the
calculator actually makes.  Member functions that mutate the object are
modelled as functions from the state record to a new state record.
-/

namespace larg4

noncomputable section

/-- The field-offset 3-vector (`geo::Vector_t`) returned by
`spacecharge::SpaceCharge::GetEfieldOffsets`; accessors `X()`, `Y()`, `Z()`. -/
structure EfieldOffsets where
  X : ℝ
  Y : ℝ
  Z : ℝ

/-- The slice of `detinfo::LArProperties` the calculator queries: the nominal
scintillation yield `ScintYield(true)`, the per-particle-type flag
`ScintByParticleType()`, and the per-species yields (each queried with
prescale argument `true`, modelled as one constant per species). -/
structure LArProperties where
  ScintYield : ℝ
  ScintByParticleType : Bool
  ProtonScintYield : ℝ
  MuonScintYield : ℝ
  PionScintYield : ℝ
  KaonScintYield : ℝ
  AlphaScintYield : ℝ
  ElectronScintYield : ℝ

/-- The slice of `detinfo::DetectorProperties` the calculator queries:
`Density(temperature)` as a function of temperature, `Temperature()`, and the
nominal field `Efield()`. -/
structure DetectorProperties where
  Density : ℝ → ℝ
  Temperature : ℝ
  Efield : ℝ

/-- The slice of `sim::LArG4Parameters` the calculator queries: recombination
constants, the modified-box flag and the `GeVToElectrons()` yield constant. -/
structure LArG4Parameters where
  RecombA : ℝ
  Recombk : ℝ
  ModBoxA : ℝ
  ModBoxB : ℝ
  UseModBoxRecomb : Bool
  GeVToElectrons : ℝ

/-- The slice of `spacecharge::SpaceCharge` the calculator queries: the
enable flag `EnableSimEfieldSCE()` and the offset lookup
`GetEfieldOffsets(geo::Point_t{x,y,z})`. -/
structure SpaceCharge where
  EnableSimEfieldSCE : Bool
  GetEfieldOffsets : ℝ → ℝ → ℝ → EfieldOffsets

/-- The state of a `larg4::ISCalculationSeparate` object: the stored service
references, the configuration constants derived at initialization, the cached
field-offset member `fEfieldOffsets`, and the three per-deposit accumulators
`fEnergyDeposit`, `fNumScintPhotons`, `fNumIonElectrons`. -/
structure ISCalculationSeparate where
  fLArProp : LArProperties
  fDetProp : DetectorProperties
  fLArG4Prop : LArG4Parameters
  fSCE : SpaceCharge
  fScintYieldFactor : ℝ
  fRecombA : ℝ
  fRecombk : ℝ
  fModBoxA : ℝ
  fModBoxB : ℝ
  fUseModBoxRecomb : Bool
  fEfieldOffsets : EfieldOffsets
  fEnergyDeposit : ℝ
  fNumScintPhotons : ℝ
  fNumIonElectrons : ℝ

/-- One `sim::SimEnergyDeposit` record, reduced to the accessors the
calculator uses. -/
structure SimEnergyDeposit where
  Energy : ℝ
  StepLength : ℝ
  MidPointX : ℝ
  MidPointY : ℝ
  MidPointZ : ℝ
  PdgCode : ℤ

/-- `ISCalculationSeparate::Reset`: zero the three accumulators. -/
def ISCalculationSeparate.Reset (s : ISCalculationSeparate) : ISCalculationSeparate :=
  { s with fEnergyDeposit := 0, fNumScintPhotons := 0, fNumIonElectrons := 0 }

/-- `ISCalculationSeparate::Initialize`: store the service references, set
`fScintYieldFactor = 1.` (hard-coded, see the `\todo` comment in the source),
derive the density-normalized recombination constants
(`fRecombk = lgp->Recombk()/detp->Density(detp->Temperature())`, likewise
`fModBoxB`), copy `fRecombA`, `fModBoxA`, `fUseModBoxRecomb`, then call
`Reset`.  The member `fEfieldOffsets` is left untouched. -/
def ISCalculationSeparate.Initialize (s : ISCalculationSeparate)
    (larp : LArProperties) (detp : DetectorProperties)
    (lgp : LArG4Parameters) (sce : SpaceCharge) : ISCalculationSeparate :=
  ISCalculationSeparate.Reset
    { s with
      fLArProp := larp
      fSCE := sce
      fDetProp := detp
      fLArG4Prop := lgp
      fScintYieldFactor := 1
      fRecombA := lgp.RecombA
      fRecombk := lgp.Recombk / detp.Density detp.Temperature
      fModBoxA := lgp.ModBoxA
      fModBoxB := lgp.ModBoxB / detp.Density detp.Temperature
      fUseModBoxRecomb := lgp.UseModBoxRecomb }

/-- `ISCalculationSeparate::EFieldAtStep(double efield, float x, float y, float z)`:
when `fSCE->EnableSimEfieldSCE()` holds, store the sampled offsets in the
member `fEfieldOffsets` and return
`sqrt((efield + efield*ox)*(efield + efield*ox) + (efield*oy + efield*oy)
+ (efield*oz + efield*oz))`; otherwise return `efield` unchanged.  The pair
returned is (updated object state, returned value). -/
def ISCalculationSeparate.EFieldAtStep (s : ISCalculationSeparate)
    (efield x y z : ℝ) : ISCalculationSeparate × ℝ :=
  if s.fSCE.EnableSimEfieldSCE then
    let off := s.fSCE.GetEfieldOffsets x y z
    ({ s with fEfieldOffsets := off },
      Real.sqrt ((efield + efield * off.X) * (efield + efield * off.X) +
        (efield * off.Y + efield * off.Y) + (efield * off.Z + efield * off.Z)))
  else
    (s, efield)

/-- `ISCalculationSeparate::CalculateIonization(float e, float ds, float x,
float y, float z)`: compute `dEdx = e/ds`, the corrected field at the step,
clamp `dEdx` to ≥ 1, pick the recombination fraction by `fUseModBoxRecomb`
(with the explicit `ds == 0` branch giving `recomb = 0` in modified-box mode),
and store `fLArG4Prop->GeVToElectrons() * 1.e-3 * e * recomb` in the
accumulator `fNumIonElectrons`.  The Birks branch reads
`fLArG4Prop->RecombA()` from the service and `fRecombk` from the derived
member, exactly as the source does. -/
def ISCalculationSeparate.CalculateIonization (s : ISCalculationSeparate)
    (e ds x y z : ℝ) : ISCalculationSeparate :=
  let dEdx0 := e / ds
  let step := s.EFieldAtStep s.fDetProp.Efield x y z
  let s1 := step.1
  let EFieldStep := step.2
  let dEdx := if dEdx0 < 1 then 1 else dEdx0
  let recomb : ℝ :=
    if s.fUseModBoxRecomb then
      if ds ≠ 0 then
        let Xi := s.fModBoxB * dEdx / EFieldStep
        Real.log (s.fModBoxA + Xi) / Xi
      else 0
    else
      s.fLArG4Prop.RecombA / (1 + dEdx * s.fRecombk / EFieldStep)
  { s1 with fNumIonElectrons := s.fLArG4Prop.GeVToElectrons * 1e-3 * e * recomb }

/-- The `switch(pdg)` dispatch in `ISCalculationSeparate::CalculateScintillation`,
selecting the species yield; the `default` branch repeats the
electron/positron/photon case. -/
def scintYieldByParticleType (larp : LArProperties) (pdg : ℤ) : ℝ :=
  if pdg = 2212 then larp.ProtonScintYield
  else if pdg = 13 ∨ pdg = -13 then larp.MuonScintYield
  else if pdg = 211 ∨ pdg = -211 then larp.PionScintYield
  else if pdg = 321 ∨ pdg = -321 then larp.KaonScintYield
  else if pdg = 1000020040 then larp.AlphaScintYield
  else if pdg = 11 ∨ pdg = -11 ∨ pdg = 22 then larp.ElectronScintYield
  else larp.ElectronScintYield

/-- `ISCalculationSeparate::CalculateScintillation(float e, int pdg)`: start
from `scintYield = fLArProp->ScintYield(true)`; when
`fLArProp->ScintByParticleType()` holds, replace it by the per-species yield
and store `scintYield * e`; otherwise store
`fScintYieldFactor * scintYield * e` in `fNumScintPhotons`. -/
def ISCalculationSeparate.CalculateScintillation (s : ISCalculationSeparate)
    (e : ℝ) (pdg : ℤ) : ISCalculationSeparate :=
  if s.fLArProp.ScintByParticleType then
    { s with fNumScintPhotons := scintYieldByParticleType s.fLArProp pdg * e }
  else
    { s with fNumScintPhotons := s.fScintYieldFactor * s.fLArProp.ScintYield * e }

/-- `ISCalculationSeparate::CalculateIonizationAndScintillation`: overwrite
`fEnergyDeposit`, then run both calculations on the deposit record. -/
def ISCalculationSeparate.CalculateIonizationAndScintillation
    (s : ISCalculationSeparate) (edep : SimEnergyDeposit) : ISCalculationSeparate :=
  let s1 := { s with fEnergyDeposit := edep.Energy }
  let s2 := s1.CalculateIonization edep.Energy edep.StepLength
    edep.MidPointX edep.MidPointY edep.MidPointZ
  s2.CalculateScintillation edep.Energy edep.PdgCode

/-- The clamped energy-loss rate actually used by `CalculateIonization`:
`dEdx = e/ds`, floored at 1 by `if(dEdx < 1.) dEdx = 1.;`.  Division is the
total real division of the embedding (`e / 0 = 0`), which is faithful to the
C++ `double` division for every `ds ≠ 0`; the `ds = 0` case, where IEEE 754
division produces an infinity or NaN instead, is modelled separately by
`ieeeDiv` and `dEdxUsedIEEE` below. -/
def dEdxUsed (e ds : ℝ) : ℝ :=
  if e / ds < 1 then 1 else e / ds

/-- A C++ `double` value as far as the `dEdx` pipeline needs it: a finite
real or one of the IEEE 754 special values +inf, -inf, NaN. -/
inductive IEEEVal where
  | finite (x : ℝ)
  | pinf
  | ninf
  | nan

/-- The C++ `double` division `double dEdx = e/ds;` for finite operands,
following IEEE 754: the finite quotient when `ds ≠ 0`, and at `ds = 0` the
infinity of the sign of `e`, or NaN for `0/0`. -/
def ieeeDiv (e ds : ℝ) : IEEEVal :=
  if ds ≠ 0 then .finite (e / ds)
  else if 0 < e then .pinf
  else if e < 0 then .ninf
  else .nan

/-- The IEEE comparison `dEdx < 1.` of the guard: an ordinary comparison on
a finite value, true for -inf, false for +inf and (being unordered) for
NaN. -/
def IEEEVal.ltOne : IEEEVal → Prop
  | .finite x => x < 1
  | .pinf => False
  | .ninf => True
  | .nan => False

instance (v : IEEEVal) : Decidable v.ltOne :=
  match v with
  | .finite x => inferInstanceAs (Decidable (x < 1))
  | .pinf => inferInstanceAs (Decidable False)
  | .ninf => inferInstanceAs (Decidable True)
  | .nan => inferInstanceAs (Decidable False)

/-- The guard `if(dEdx < 1.) dEdx = 1.;` applied to the IEEE quotient: the
dE/dx value the source goes on to use, under `double` semantics.  For
`ds ≠ 0` it coincides with `dEdxUsed`; at `ds = 0` the +inf and NaN
quotients compare not-below 1 and are left unclamped. -/
def dEdxUsedIEEE (e ds : ℝ) : IEEEVal :=
  if (ieeeDiv e ds).ltOne then .finite 1 else ieeeDiv e ds

/-- The corrected field value `CalculateIonization` feeds to the
recombination formulas: the returned component of `EFieldAtStep` at the
nominal field `fDetProp->Efield()`. -/
def ISCalculationSeparate.fieldAtStep (s : ISCalculationSeparate) (x y z : ℝ) : ℝ :=
  (s.EFieldAtStep s.fDetProp.Efield x y z).2

/-- The recombination survival fraction computed by `CalculateIonization`,
written as a function of the state and the inputs. -/
def ISCalculationSeparate.recombFraction (s : ISCalculationSeparate)
    (e ds x y z : ℝ) : ℝ :=
  if s.fUseModBoxRecomb then
    if ds ≠ 0 then
      Real.log (s.fModBoxA + s.fModBoxB * dEdxUsed e ds / s.fieldAtStep x y z) /
        (s.fModBoxB * dEdxUsed e ds / s.fieldAtStep x y z)
    else 0
  else
    s.fLArG4Prop.RecombA / (1 + dEdxUsed e ds * s.fRecombk / s.fieldAtStep x y z)

/-- The modified-box electron yield per unit of `GeVToElectrons * 1e-3`:
`e * recomb` with `b` the field-normalized `fModBoxB` and the clamped
`dE/dx = max 1 (e/ds)`.  Used to analyse `CalculateIonization` as a scalar
function of the energy. -/
def modBoxPhi (A0 b ds e : ℝ) : ℝ :=
  e * (Real.log (A0 + b * max 1 (e / ds)) / (b * max 1 (e / ds)))

/-- The Birks-style electron yield per unit of `GeVToElectrons * 1e-3`:
`e * recomb` with `c` the field-normalized `fRecombk` and the clamped
`dE/dx = max 1 (e/ds)`. -/
def birksPsi (A c ds e : ℝ) : ℝ :=
  e * (A / (1 + max 1 (e / ds) * c))

/-! Concrete service bundles and calculator states, used to instantiate the
theorems below on explicit inputs. Density is the constant 1 so the derived
members equal the raw configuration constants; the nominal field is 5. -/

/-- Example `LArProperties` with per-particle-type scintillation disabled. -/
def larpEx : LArProperties :=
  ⟨24000, false, 19200, 24000, 24000, 12000, 16800, 20000⟩

/-- Example `LArProperties` with per-particle-type scintillation enabled. -/
def larpByType : LArProperties :=
  { larpEx with ScintByParticleType := true }

/-- Example `DetectorProperties`: density constantly 1, temperature 87,
nominal field 5. -/
def detpEx : DetectorProperties :=
  ⟨fun _ => 1, 87, 5⟩

/-- Example `LArG4Parameters` with the Birks-style mode selected. -/
def lgpEx : LArG4Parameters :=
  ⟨4 / 5, 1 / 20, 93 / 100, 53 / 250, false, 42702⟩

/-- Example `SpaceCharge` with the field-distortion correction disabled. -/
def sceOffEx : SpaceCharge :=
  ⟨false, fun _ _ _ => ⟨0, 0, 0⟩⟩

/-- Example `SpaceCharge` with the correction enabled and constant offsets
(0, 1, 0). -/
def sceOnEx : SpaceCharge :=
  ⟨true, fun _ _ _ => ⟨0, 1, 0⟩⟩

/-- The example calculator state: what `Initialize` produces from the example
services (density 1 makes the derived constants equal the raw ones). -/
def baseState : ISCalculationSeparate :=
  { fLArProp := larpEx
    fDetProp := detpEx
    fLArG4Prop := lgpEx
    fSCE := sceOffEx
    fScintYieldFactor := 1
    fRecombA := 4 / 5
    fRecombk := 1 / 20
    fModBoxA := 93 / 100
    fModBoxB := 53 / 250
    fUseModBoxRecomb := false
    fEfieldOffsets := ⟨0, 0, 0⟩
    fEnergyDeposit := 0
    fNumScintPhotons := 0
    fNumIonElectrons := 0 }

/-- The example state switched to the modified-box recombination mode. -/
def stateModBox : ISCalculationSeparate :=
  { baseState with
    fLArG4Prop := { lgpEx with UseModBoxRecomb := true }
    fUseModBoxRecomb := true }

/-- The example state with the field-distortion correction enabled. -/
def stateSCE : ISCalculationSeparate :=
  { baseState with fSCE := sceOnEx }

/-- The example state with the per-particle-type scintillation flag set. -/
def stateByType : ISCalculationSeparate :=
  { baseState with fLArProp := larpByType }

/-- The example state with a nonzero electron count already accumulated. -/
def statePrior : ISCalculationSeparate :=
  { baseState with fNumIonElectrons := 5 }

theorem CalculateIonization_fNumIonElectrons (s : ISCalculationSeparate)
    (e ds x y z : ℝ) :
    (s.CalculateIonization e ds x y z).fNumIonElectrons =
      s.fLArG4Prop.GeVToElectrons * 1e-3 * e * s.recombFraction e ds x y z := rfl

theorem CalculateIonization_state (s : ISCalculationSeparate) (e ds x y z : ℝ) :
    s.CalculateIonization e ds x y z =
      { (s.EFieldAtStep s.fDetProp.Efield x y z).1 with
        fNumIonElectrons :=
          s.fLArG4Prop.GeVToElectrons * 1e-3 * e * s.recombFraction e ds x y z } := rfl

theorem dEdxUsed_eq_max (e ds : ℝ) : dEdxUsed e ds = max 1 (e / ds) := by
  unfold dEdxUsed
  rcases lt_or_le (e / ds) 1 with h | h
  · rw [if_pos h, max_eq_left h.le]
  · rw [if_neg (not_lt.mpr h), max_eq_right h]

theorem one_le_dEdxUsed (e ds : ℝ) : 1 ≤ dEdxUsed e ds := by
  rw [dEdxUsed_eq_max]
  exact le_max_left 1 (e / ds)

/-- Claim C2 counterexample: at energy 1 and step length 0 the C++ `double`
quotient `e/ds` is +infinity; the guard's comparison `+inf < 1.` is false,
so no clamp fires and the dE/dx value used is +infinity — not the claimed
exact 1.0. -/
theorem C2_counterexample :
    dEdxUsedIEEE 1 0 = IEEEVal.pinf ∧ dEdxUsedIEEE 1 0 ≠ IEEEVal.finite 1 := by
  have h : dEdxUsedIEEE 1 0 = IEEEVal.pinf := by
    unfold dEdxUsedIEEE ieeeDiv
    rw [if_neg (by norm_num : ¬((0 : ℝ) ≠ 0)), if_pos (by norm_num : (0 : ℝ) < 1),
      if_neg (by simp [IEEEVal.ltOne])]
  refine ⟨h, ?_⟩
  rw [h]
  intro hc
  exact IEEEVal.noConfusion hc

/-- Claim C2 (amended): under IEEE `double` semantics the guard
`if(dEdx < 1.) dEdx = 1.;` clamps the quotient to exactly 1 precisely when
it compares below 1, and the value used never compares below 1.  For every
`ds ≠ 0` the quotient is finite, the value used is `e/ds` floored at 1
(exactly 1 whenever `e/ds < 1`, always at least 1), and the stored electron
count is computed from it in both recombination formulas.  In the
division-by-zero case `ds = 0` the quotient is +inf for `e > 0` and NaN for
`e = 0`, both left unclamped — not the exact 1.0 the original claim asserts
— while the -inf quotient of `e < 0` is clamped to 1. -/
theorem C2_dEdx_floor_ieee (s : ISCalculationSeparate) (e ds x y z : ℝ) :
    ¬(dEdxUsedIEEE e ds).ltOne ∧
    (ds ≠ 0 → dEdxUsedIEEE e ds = IEEEVal.finite (dEdxUsed e ds) ∧
      1 ≤ dEdxUsed e ds ∧ (e / ds < 1 → dEdxUsed e ds = 1) ∧
      (s.CalculateIonization e ds x y z).fNumIonElectrons =
        s.fLArG4Prop.GeVToElectrons * 1e-3 * e *
          (if s.fUseModBoxRecomb then
            Real.log (s.fModBoxA + s.fModBoxB * dEdxUsed e ds / s.fieldAtStep x y z) /
              (s.fModBoxB * dEdxUsed e ds / s.fieldAtStep x y z)
          else
            s.fLArG4Prop.RecombA /
              (1 + dEdxUsed e ds * s.fRecombk / s.fieldAtStep x y z))) ∧
    (ds = 0 →
      (0 < e → dEdxUsedIEEE e ds = IEEEVal.pinf) ∧
      (e = 0 → dEdxUsedIEEE e ds = IEEEVal.nan) ∧
      (e < 0 → dEdxUsedIEEE e ds = IEEEVal.finite 1)) := by
  refine ⟨?_, fun hds => ⟨?_, one_le_dEdxUsed e ds, fun h => ?_, ?_⟩,
    fun hds => ⟨fun he => ?_, fun he => ?_, fun he => ?_⟩⟩
  · unfold dEdxUsedIEEE
    by_cases h : (ieeeDiv e ds).ltOne
    · rw [if_pos h]
      exact lt_irrefl 1
    · rw [if_neg h]
      exact h
  · unfold dEdxUsedIEEE ieeeDiv dEdxUsed
    rw [if_pos hds]
    simp only [IEEEVal.ltOne]
    by_cases h : e / ds < 1
    · rw [if_pos h, if_pos h]
    · rw [if_neg h, if_neg h]
  · unfold dEdxUsed
    rw [if_pos h]
  · rw [CalculateIonization_fNumIonElectrons]
    unfold ISCalculationSeparate.recombFraction
    rw [if_pos hds]
  · subst hds
    have hdiv : ieeeDiv e 0 = IEEEVal.pinf := by
      unfold ieeeDiv
      rw [if_neg (by norm_num : ¬((0 : ℝ) ≠ 0)), if_pos he]
    unfold dEdxUsedIEEE
    rw [hdiv, if_neg (by simp [IEEEVal.ltOne])]
  · subst hds
    subst he
    have hdiv : ieeeDiv 0 0 = IEEEVal.nan := by
      unfold ieeeDiv
      rw [if_neg (by norm_num : ¬((0 : ℝ) ≠ 0)), if_neg (lt_irrefl 0),
        if_neg (lt_irrefl 0)]
    unfold dEdxUsedIEEE
    rw [hdiv, if_neg (by simp [IEEEVal.ltOne])]
  · subst hds
    have hdiv : ieeeDiv e 0 = IEEEVal.ninf := by
      unfold ieeeDiv
      rw [if_neg (by norm_num : ¬((0 : ℝ) ≠ 0)), if_neg (not_lt.mpr he.le), if_pos he]
    unfold dEdxUsedIEEE
    rw [hdiv, if_pos (by simp [IEEEVal.ltOne])]

/-- Claim C3: in modified-box mode a zero-length step takes the explicit
`ds == 0` branch, so the recombination survival fraction is 0 and the stored
ionization electron count is exactly 0. -/
theorem C3_modbox_zero_step (s : ISCalculationSeparate) (e x y z : ℝ)
    (he : 0 ≤ e) (hmode : s.fUseModBoxRecomb = true) :
    s.recombFraction e 0 x y z = 0 ∧
    (s.CalculateIonization e 0 x y z).fNumIonElectrons = 0 := by
  have h0 : s.recombFraction e 0 x y z = 0 := by
    simp [ISCalculationSeparate.recombFraction, hmode]
  exact ⟨h0, by rw [CalculateIonization_fNumIonElectrons, h0, mul_zero]⟩

/-- Claim C3 witness: the modified-box example state at energy 5 MeV and step
length 0 yields exactly zero ionization electrons. -/
theorem C3_witness :
    ((0 : ℝ) ≤ 5 ∧ stateModBox.fUseModBoxRecomb = true) ∧
    (stateModBox.recombFraction 5 0 0 0 0 = 0 ∧
      (stateModBox.CalculateIonization 5 0 0 0 0).fNumIonElectrons = 0) :=
  ⟨⟨by norm_num, rfl⟩, C3_modbox_zero_step stateModBox 5 0 0 0 (by norm_num) rfl⟩

/-- Claim C8: with the field-distortion correction disabled, `EFieldAtStep`
returns the nominal field unchanged, whatever the position. -/
theorem C8_field_correction_disabled (s : ISCalculationSeparate)
    (efield x y z : ℝ) (h : s.fSCE.EnableSimEfieldSCE = false) :
    (s.EFieldAtStep efield x y z).2 = efield := by
  simp [ISCalculationSeparate.EFieldAtStep, h]

/-- Claim C8 witness: the example state with correction disabled returns the
nominal field 7 at position (1, 2, 3). -/
theorem C8_witness :
    baseState.fSCE.EnableSimEfieldSCE = false ∧
    (baseState.EFieldAtStep 7 1 2 3).2 = 7 :=
  ⟨rfl, C8_field_correction_disabled baseState 7 1 2 3 rfl⟩

/-- Claim C9: `Reset` zeroes the three accumulators and leaves every
configuration field (the derived recombination constants, the mode flag, the
yield factor, the stored services and the cached offsets) unchanged. -/
theorem C9_Reset_frame (s : ISCalculationSeparate) :
    s.Reset.fEnergyDeposit = 0 ∧ s.Reset.fNumIonElectrons = 0 ∧
    s.Reset.fNumScintPhotons = 0 ∧
    s.Reset.fRecombA = s.fRecombA ∧ s.Reset.fRecombk = s.fRecombk ∧
    s.Reset.fModBoxA = s.fModBoxA ∧ s.Reset.fModBoxB = s.fModBoxB ∧
    s.Reset.fUseModBoxRecomb = s.fUseModBoxRecomb ∧
    s.Reset.fScintYieldFactor = s.fScintYieldFactor ∧
    s.Reset.fLArProp = s.fLArProp ∧ s.Reset.fDetProp = s.fDetProp ∧
    s.Reset.fLArG4Prop = s.fLArG4Prop ∧ s.Reset.fSCE = s.fSCE ∧
    s.Reset.fEfieldOffsets = s.fEfieldOffsets :=
  ⟨rfl, rfl, rfl, rfl, rfl, rfl, rfl, rfl, rfl, rfl, rfl, rfl, rfl, rfl⟩

/-- Claim C10: `Initialize` hard-codes the global scintillation yield factor
to the constant 1, so with per-species mode disabled the photon count stored
by `CalculateScintillation` is exactly `ScintYield * e`. -/
theorem C10_yield_factor_one (s0 : ISCalculationSeparate) (larp : LArProperties)
    (detp : DetectorProperties) (lgp : LArG4Parameters) (sce : SpaceCharge)
    (e : ℝ) (pdg : ℤ) (h : larp.ScintByParticleType = false) :
    (s0.Initialize larp detp lgp sce).fScintYieldFactor = 1 ∧
    ((s0.Initialize larp detp lgp sce).CalculateScintillation e pdg).fNumScintPhotons =
      larp.ScintYield * e := by
  refine ⟨rfl, ?_⟩
  simp [ISCalculationSeparate.Initialize, ISCalculationSeparate.Reset,
    ISCalculationSeparate.CalculateScintillation, h]

/-- Claim C10 witness: the example services have per-species mode disabled
and give photon count `ScintYield * 2` at energy 2 for species code 13. -/
theorem C10_witness :
    larpEx.ScintByParticleType = false ∧
    ((baseState.Initialize larpEx detpEx lgpEx sceOffEx).fScintYieldFactor = 1 ∧
      ((baseState.Initialize larpEx detpEx lgpEx sceOffEx).CalculateScintillation
          2 13).fNumScintPhotons = larpEx.ScintYield * 2) :=
  ⟨rfl, C10_yield_factor_one baseState larpEx detpEx lgpEx sceOffEx 2 13 rfl⟩

/-- Claim C1 counterexample: with correction enabled, nominal field 1 and
sampled offsets (0, 1, 0), the code returns `sqrt 3` — under the square root
the y and z terms are doubled but not squared — while the formula of the
claim, which squares the doubled y and z terms as well, gives `sqrt 5`. -/
theorem C1_counterexample :
    (stateSCE.EFieldAtStep 1 0 0 0).2 ≠
      Real.sqrt ((1 + 1 * (0 : ℝ)) ^ 2 + (1 * 1 + 1 * 1) ^ 2 +
        (1 * 0 + 1 * 0) ^ 2) := by
  have hcode : (stateSCE.EFieldAtStep 1 0 0 0).2 = Real.sqrt 3 := by
    norm_num [ISCalculationSeparate.EFieldAtStep, stateSCE, sceOnEx, baseState]
  have hspec : Real.sqrt ((1 + 1 * (0 : ℝ)) ^ 2 + (1 * 1 + 1 * 1) ^ 2 +
      (1 * 0 + 1 * 0) ^ 2) = Real.sqrt 5 := by norm_num
  rw [hcode, hspec]
  exact ne_of_lt (Real.sqrt_lt_sqrt (by norm_num) (by norm_num))

/-- Claim C1 (amended): with spatial correction enabled, `EFieldAtStep`
returns `sqrt((E + E*ox)^2 + (E*oy + E*oy) + (E*oz + E*oz))` at the sampled
offsets (ox, oy, oz): the x term is squared while the y and z terms are each
doubled (added to themselves) and not squared. -/
theorem C1_field_formula (s : ISCalculationSeparate) (efield x y z : ℝ)
    (h : s.fSCE.EnableSimEfieldSCE = true) :
    (s.EFieldAtStep efield x y z).2 =
      Real.sqrt ((efield + efield * (s.fSCE.GetEfieldOffsets x y z).X) ^ 2 +
        (efield * (s.fSCE.GetEfieldOffsets x y z).Y +
          efield * (s.fSCE.GetEfieldOffsets x y z).Y) +
        (efield * (s.fSCE.GetEfieldOffsets x y z).Z +
          efield * (s.fSCE.GetEfieldOffsets x y z).Z)) := by
  simp [ISCalculationSeparate.EFieldAtStep, h, pow_two]

/-- Claim C1 witness: the amended formula instantiated on the enabled example
state at nominal field 1 and position (0, 0, 0). -/
theorem C1_witness :
    stateSCE.fSCE.EnableSimEfieldSCE = true ∧
    (stateSCE.EFieldAtStep 1 0 0 0).2 =
      Real.sqrt ((1 + 1 * (stateSCE.fSCE.GetEfieldOffsets 0 0 0).X) ^ 2 +
        (1 * (stateSCE.fSCE.GetEfieldOffsets 0 0 0).Y +
          1 * (stateSCE.fSCE.GetEfieldOffsets 0 0 0).Y) +
        (1 * (stateSCE.fSCE.GetEfieldOffsets 0 0 0).Z +
          1 * (stateSCE.fSCE.GetEfieldOffsets 0 0 0).Z)) :=
  ⟨rfl, C1_field_formula stateSCE 1 0 0 0 rfl⟩

theorem EFieldAtStep_fst (s : ISCalculationSeparate) (efield x y z : ℝ) :
    (s.EFieldAtStep efield x y z).1 =
      if s.fSCE.EnableSimEfieldSCE then
        { s with fEfieldOffsets := s.fSCE.GetEfieldOffsets x y z }
      else s := by
  by_cases h : s.fSCE.EnableSimEfieldSCE <;>
    simp [ISCalculationSeparate.EFieldAtStep, h]

/-- Claim C4 counterexample: `CalculateIonization` itself overwrites the
accumulator `fNumIonElectrons`: on a state already holding electron count 5
it stores a different value (here 0, since the deposited energy is 0). -/
theorem C4_counterexample :
    (statePrior.CalculateIonization 0 1 0 0 0).fNumIonElectrons ≠
      statePrior.fNumIonElectrons := by
  rw [CalculateIonization_fNumIonElectrons]
  have h5 : statePrior.fNumIonElectrons = 5 := rfl
  have h0 : statePrior.fLArG4Prop.GeVToElectrons * 1e-3 * 0 *
      statePrior.recombFraction 0 1 0 0 0 = 0 := by ring
  rw [h5, h0]
  norm_num

/-- Claim C4 (amended): `CalculateIonization` writes the computed electron
count into the accumulator `fNumIonElectrons` itself and, when the
field-distortion correction is enabled, stores the sampled offsets in the
member `fEfieldOffsets`; everything else — the other two accumulators, the
configuration constants, the mode flag, the yield factor and the stored
services — is left unchanged. -/
theorem C4_frame (s : ISCalculationSeparate) (e ds x y z : ℝ) :
    (s.CalculateIonization e ds x y z).fNumIonElectrons =
      s.fLArG4Prop.GeVToElectrons * 1e-3 * e * s.recombFraction e ds x y z ∧
    (s.CalculateIonization e ds x y z).fEnergyDeposit = s.fEnergyDeposit ∧
    (s.CalculateIonization e ds x y z).fNumScintPhotons = s.fNumScintPhotons ∧
    (s.CalculateIonization e ds x y z).fRecombA = s.fRecombA ∧
    (s.CalculateIonization e ds x y z).fRecombk = s.fRecombk ∧
    (s.CalculateIonization e ds x y z).fModBoxA = s.fModBoxA ∧
    (s.CalculateIonization e ds x y z).fModBoxB = s.fModBoxB ∧
    (s.CalculateIonization e ds x y z).fUseModBoxRecomb = s.fUseModBoxRecomb ∧
    (s.CalculateIonization e ds x y z).fScintYieldFactor = s.fScintYieldFactor ∧
    (s.CalculateIonization e ds x y z).fLArProp = s.fLArProp ∧
    (s.CalculateIonization e ds x y z).fDetProp = s.fDetProp ∧
    (s.CalculateIonization e ds x y z).fLArG4Prop = s.fLArG4Prop ∧
    (s.CalculateIonization e ds x y z).fSCE = s.fSCE ∧
    (s.fSCE.EnableSimEfieldSCE = false →
      (s.CalculateIonization e ds x y z).fEfieldOffsets = s.fEfieldOffsets) ∧
    (s.fSCE.EnableSimEfieldSCE = true →
      (s.CalculateIonization e ds x y z).fEfieldOffsets =
        s.fSCE.GetEfieldOffsets x y z) := by
  by_cases h : s.fSCE.EnableSimEfieldSCE <;>
    simp [CalculateIonization_state, EFieldAtStep_fst, h]

/-- Claim C5: in Birks-style mode the stored electron count is
`GeVToElectrons * 1e-3 * e * (RecombA / (1 + dEdx * recombK / field))` where
`recombK` is the configured `Recombk` divided once, at initialization, by the
medium density at the configured temperature. -/
theorem C5_birks_formula (s0 : ISCalculationSeparate) (larp : LArProperties)
    (detp : DetectorProperties) (lgp : LArG4Parameters) (sce : SpaceCharge)
    (e ds x y z : ℝ) (hmode : lgp.UseModBoxRecomb = false) (hds : 0 < ds) :
    ((s0.Initialize larp detp lgp sce).CalculateIonization e ds x y z).fNumIonElectrons =
      lgp.GeVToElectrons * 1e-3 * e *
        (lgp.RecombA /
          (1 + dEdxUsed e ds * (lgp.Recombk / detp.Density detp.Temperature) /
            (s0.Initialize larp detp lgp sce).fieldAtStep x y z)) := by
  rw [CalculateIonization_fNumIonElectrons]
  have hflag : (s0.Initialize larp detp lgp sce).fUseModBoxRecomb = false := hmode
  simp only [ISCalculationSeparate.recombFraction, hflag, if_false, Bool.false_eq_true]
  rfl

/-- Claim C5 witness: the Birks formula instantiated on the example services
at energy 2, step length 3/10, position (0, 0, 0). -/
theorem C5_witness :
    (lgpEx.UseModBoxRecomb = false ∧ (0 : ℝ) < 3 / 10) ∧
    ((baseState.Initialize larpEx detpEx lgpEx sceOffEx).CalculateIonization
        2 (3 / 10) 0 0 0).fNumIonElectrons =
      lgpEx.GeVToElectrons * 1e-3 * 2 *
        (lgpEx.RecombA /
          (1 + dEdxUsed 2 (3 / 10) * (lgpEx.Recombk / detpEx.Density detpEx.Temperature) /
            (baseState.Initialize larpEx detpEx lgpEx sceOffEx).fieldAtStep 0 0 0)) :=
  ⟨⟨rfl, by norm_num⟩,
    C5_birks_formula baseState larpEx detpEx lgpEx sceOffEx 2 (3 / 10) 0 0 0 rfl
      (by norm_num)⟩

/-- Claim C6: with per-species mode enabled the photon count is the selected
yield times the energy; the selection maps code 2212 to the proton yield and
any code outside the fixed table to the yield of code 11 (electron). -/
theorem C6_species_dispatch (s : ISCalculationSeparate) (e : ℝ) (pdg : ℤ)
    (h : s.fLArProp.ScintByParticleType = true) :
    (s.CalculateScintillation e pdg).fNumScintPhotons =
      scintYieldByParticleType s.fLArProp pdg * e ∧
    scintYieldByParticleType s.fLArProp 2212 = s.fLArProp.ProtonScintYield ∧
    (pdg ∉ ([2212, 13, -13, 211, -211, 321, -321, 1000020040, 11, -11, 22] : List ℤ) →
      scintYieldByParticleType s.fLArProp pdg = scintYieldByParticleType s.fLArProp 11) := by
  refine ⟨by simp [ISCalculationSeparate.CalculateScintillation, h],
    by simp [scintYieldByParticleType], fun hn => ?_⟩
  simp only [List.mem_cons, List.not_mem_nil, or_false, not_or] at hn
  obtain ⟨h1, h2, h3, h4, h5, h6, h7, h8, h9, h10, h11⟩ := hn
  simp [scintYieldByParticleType, h1, h2, h3, h4, h5, h6, h7, h8, h9, h10, h11]

/-- Claim C6 witness: on the per-species example state, code -2212
(antiproton, outside the table) at energy 3 falls back to the electron
yield. -/
theorem C6_witness :
    stateByType.fLArProp.ScintByParticleType = true ∧
    ((stateByType.CalculateScintillation 3 (-2212)).fNumScintPhotons =
      scintYieldByParticleType stateByType.fLArProp (-2212) * 3 ∧
    scintYieldByParticleType stateByType.fLArProp 2212 =
      stateByType.fLArProp.ProtonScintYield ∧
    ((-2212 : ℤ) ∉ ([2212, 13, -13, 211, -211, 321, -321, 1000020040, 11, -11, 22] : List ℤ) →
      scintYieldByParticleType stateByType.fLArProp (-2212) =
        scintYieldByParticleType stateByType.fLArProp 11)) :=
  ⟨rfl, C6_species_dispatch stateByType 3 (-2212) rfl⟩

theorem count_eq_modBoxPhi (s : ISCalculationSeparate) (e ds x y z : ℝ)
    (hmode : s.fUseModBoxRecomb = true) (hds : ds ≠ 0) :
    (s.CalculateIonization e ds x y z).fNumIonElectrons =
      s.fLArG4Prop.GeVToElectrons * 1e-3 *
        modBoxPhi s.fModBoxA (s.fModBoxB / s.fieldAtStep x y z) ds e := by
  rw [CalculateIonization_fNumIonElectrons]
  unfold ISCalculationSeparate.recombFraction modBoxPhi
  simp only [hmode, if_true, hds, ne_eq, not_false_iff, dEdxUsed_eq_max,
    mul_div_right_comm]
  ring

theorem count_eq_birksPsi (s : ISCalculationSeparate) (e ds x y z : ℝ)
    (hmode : s.fUseModBoxRecomb = false) :
    (s.CalculateIonization e ds x y z).fNumIonElectrons =
      s.fLArG4Prop.GeVToElectrons * 1e-3 *
        birksPsi s.fLArG4Prop.RecombA (s.fRecombk / s.fieldAtStep x y z) ds e := by
  rw [CalculateIonization_fNumIonElectrons]
  unfold ISCalculationSeparate.recombFraction birksPsi
  simp only [hmode, Bool.false_eq_true, if_false, dEdxUsed_eq_max, mul_div_assoc]
  ring

theorem modBoxPhi_low (A0 b ds e : ℝ) (hds : 0 < ds) (he : e ≤ ds) :
    modBoxPhi A0 b ds e = e * (Real.log (A0 + b) / b) := by
  unfold modBoxPhi
  rw [max_eq_left ((div_le_one hds).mpr he), mul_one]

theorem modBoxPhi_high (A0 b ds e : ℝ) (hds : 0 < ds) (hb : 0 < b) (he : ds ≤ e) :
    modBoxPhi A0 b ds e = ds / b * Real.log (A0 + b / ds * e) := by
  have he0 : 0 < e := hds.trans_le he
  unfold modBoxPhi
  rw [max_eq_right ((one_le_div hds).mpr he),
    show b * (e / ds) = b / ds * e by ring]
  field_simp
  ring

theorem modBoxPhi_mono_low (A0 b ds e₁ e₂ : ℝ) (hds : 0 < ds) (hb : 0 < b)
    (hA : 1 < A0 + b) (h12 : e₁ < e₂) (h2 : e₂ ≤ ds) :
    modBoxPhi A0 b ds e₁ < modBoxPhi A0 b ds e₂ := by
  rw [modBoxPhi_low A0 b ds e₁ hds (h12.le.trans h2), modBoxPhi_low A0 b ds e₂ hds h2]
  exact mul_lt_mul_of_pos_right h12 (div_pos (Real.log_pos hA) hb)

theorem modBoxPhi_mono_high (A0 b ds e₁ e₂ : ℝ) (hds : 0 < ds) (hb : 0 < b)
    (hA : 1 < A0 + b) (h1 : ds ≤ e₁) (h12 : e₁ < e₂) :
    modBoxPhi A0 b ds e₁ < modBoxPhi A0 b ds e₂ := by
  rw [modBoxPhi_high A0 b ds e₁ hds hb h1,
    modBoxPhi_high A0 b ds e₂ hds hb (h1.trans h12.le)]
  apply mul_lt_mul_of_pos_left _ (div_pos hds hb)
  have hbb : b ≤ b / ds * e₁ := by
    rw [div_mul_eq_mul_div, le_div_iff₀ hds]
    exact mul_le_mul_of_nonneg_left h1 hb.le
  have harg : b / ds * e₁ < b / ds * e₂ :=
    mul_lt_mul_of_pos_left h12 (div_pos hb hds)
  exact Real.log_lt_log (by linarith) (by linarith)

theorem modBoxPhi_mono (A0 b ds e₁ e₂ : ℝ) (hds : 0 < ds) (hb : 0 < b)
    (hA : 1 < A0 + b) (h12 : e₁ < e₂) :
    modBoxPhi A0 b ds e₁ < modBoxPhi A0 b ds e₂ := by
  rcases le_or_lt e₂ ds with h | h
  · exact modBoxPhi_mono_low A0 b ds e₁ e₂ hds hb hA h12 h
  · rcases le_or_lt ds e₁ with h' | h'
    · exact modBoxPhi_mono_high A0 b ds e₁ e₂ hds hb hA h' h12
    · exact lt_trans (modBoxPhi_mono_low A0 b ds e₁ ds hds hb hA h' le_rfl)
        (modBoxPhi_mono_high A0 b ds ds e₂ hds hb hA le_rfl h)

theorem modBoxPhi_nonneg (A0 b ds e : ℝ) (hds : 0 < ds) (hb : 0 < b)
    (hA : 1 < A0 + b) (he : 0 ≤ e) : 0 ≤ modBoxPhi A0 b ds e := by
  rcases he.eq_or_lt with h | h
  · rw [← h]
    simp [modBoxPhi]
  · have h0 : modBoxPhi A0 b ds 0 = 0 := by simp [modBoxPhi]
    have hmono := modBoxPhi_mono A0 b ds 0 e hds hb hA h
    rw [h0] at hmono
    exact hmono.le

theorem birksPsi_low (A c ds e : ℝ) (hds : 0 < ds) (he : e ≤ ds) :
    birksPsi A c ds e = e * (A / (1 + c)) := by
  unfold birksPsi
  rw [max_eq_left ((div_le_one hds).mpr he), one_mul]

theorem birksPsi_mono_low (A c ds e₁ e₂ : ℝ) (hds : 0 < ds) (hA : 0 < A)
    (hc : 0 ≤ c) (h12 : e₁ < e₂) (h2 : e₂ ≤ ds) :
    birksPsi A c ds e₁ < birksPsi A c ds e₂ := by
  rw [birksPsi_low A c ds e₁ hds (h12.le.trans h2), birksPsi_low A c ds e₂ hds h2]
  exact mul_lt_mul_of_pos_right h12 (div_pos hA (by linarith))

theorem birksPsi_mono_high (A c ds e₁ e₂ : ℝ) (hds : 0 < ds) (hA : 0 < A)
    (hc : 0 ≤ c) (h1 : ds ≤ e₁) (h12 : e₁ < e₂) :
    birksPsi A c ds e₁ < birksPsi A c ds e₂ := by
  have he1 : 0 < e₁ := hds.trans_le h1
  have hm1 : max 1 (e₁ / ds) = e₁ / ds := max_eq_right ((one_le_div hds).mpr h1)
  have hm2 : max 1 (e₂ / ds) = e₂ / ds :=
    max_eq_right ((one_le_div hds).mpr (h1.trans h12.le))
  have hd1 : 0 < 1 + e₁ / ds * c := by
    have := mul_nonneg (div_nonneg he1.le hds.le) hc
    linarith
  have hd2 : 0 < 1 + e₂ / ds * c := by
    have := mul_nonneg (div_nonneg (he1.trans h12).le hds.le) hc
    linarith
  unfold birksPsi
  rw [hm1, hm2, mul_div_assoc' e₁ A _, mul_div_assoc' e₂ A _, div_lt_div_iff₀ hd1 hd2]
  have hring : e₁ * (e₂ / ds) = e₂ * (e₁ / ds) := by ring
  calc e₁ * A * (1 + e₂ / ds * c)
      = A * e₁ + A * c * (e₁ * (e₂ / ds)) := by ring
    _ = A * e₁ + A * c * (e₂ * (e₁ / ds)) := by rw [hring]
    _ < A * e₂ + A * c * (e₂ * (e₁ / ds)) := by
        linarith [mul_lt_mul_of_pos_left h12 hA]
    _ = e₂ * A * (1 + e₁ / ds * c) := by ring

theorem birksPsi_mono (A c ds e₁ e₂ : ℝ) (hds : 0 < ds) (hA : 0 < A)
    (hc : 0 ≤ c) (h12 : e₁ < e₂) :
    birksPsi A c ds e₁ < birksPsi A c ds e₂ := by
  rcases le_or_lt e₂ ds with h | h
  · exact birksPsi_mono_low A c ds e₁ e₂ hds hA hc h12 h
  · rcases le_or_lt ds e₁ with h' | h'
    · exact birksPsi_mono_high A c ds e₁ e₂ hds hA hc h' h12
    · exact lt_trans (birksPsi_mono_low A c ds e₁ ds hds hA hc h' le_rfl)
        (birksPsi_mono_high A c ds ds e₂ hds hA hc le_rfl h)

theorem birksPsi_nonneg (A c ds e : ℝ) (hds : 0 < ds) (hA : 0 ≤ A)
    (hc : 0 ≤ c) (he : 0 ≤ e) : 0 ≤ birksPsi A c ds e := by
  unfold birksPsi
  apply mul_nonneg he
  apply div_nonneg hA
  have h1 : (1 : ℝ) ≤ max 1 (e / ds) := le_max_left _ _
  have := mul_nonneg (zero_le_one.trans h1) hc
  linarith

/-- Claim C7 counterexample: in modified-box mode with nominal field 5 the
claimed non-negativity fails: at energy 1/2 and step length 1 the clamped
`dE/dx` is 1, `Xi = (53/250)/5 = 53/1250`, and `modBoxA + Xi = 2431/2500 < 1`
makes the logarithm — and with it the stored electron count — negative. -/
theorem C7_counterexample :
    (stateModBox.CalculateIonization (1 / 2) 1 0 0 0).fNumIonElectrons < 0 := by
  rw [count_eq_modBoxPhi stateModBox (1 / 2) 1 0 0 0 rfl one_ne_zero]
  have hphi : modBoxPhi stateModBox.fModBoxA
      (stateModBox.fModBoxB / stateModBox.fieldAtStep 0 0 0) 1 (1 / 2) < 0 := by
    rw [modBoxPhi_low _ _ _ _ one_pos (by norm_num)]
    have hA0 : stateModBox.fModBoxA = 93 / 100 := rfl
    have hb : stateModBox.fModBoxB / stateModBox.fieldAtStep 0 0 0 = 53 / 1250 := by
      norm_num [stateModBox, baseState, ISCalculationSeparate.fieldAtStep,
        ISCalculationSeparate.EFieldAtStep, sceOffEx, detpEx]
    rw [hA0, hb]
    have hlog : Real.log (93 / 100 + 53 / 1250) < 0 :=
      Real.log_neg (by norm_num) (by norm_num)
    have hq : Real.log (93 / 100 + 53 / 1250) / (53 / 1250 : ℝ) < 0 :=
      div_neg_of_neg_of_pos hlog (by norm_num)
    linarith
  have hK : (0 : ℝ) < stateModBox.fLArG4Prop.GeVToElectrons * 1e-3 := by
    norm_num [stateModBox, lgpEx]
  exact mul_neg_of_pos_of_neg hK hphi

/-- Claim C7 (amended): for energies `0 ≤ e₁ < e₂` and step length `ds > 0`,
holding step length and field fixed, the stored ionization electron count is
non-negative and strictly increasing in the energy, in both recombination
modes, under the positivity side conditions the claim leaves implicit: a
positive `GeVToElectrons` constant and corrected field, in Birks mode a
positive `RecombA` and non-negative `fRecombk`, and in modified-box mode a
positive `fModBoxB` together with `fModBoxA + fModBoxB / field > 1` (the
counterexample shows the count can go negative when that last condition
fails). -/
theorem C7_monotone (s : ISCalculationSeparate) (ds x y z e₁ e₂ : ℝ)
    (hds : 0 < ds) (hG : 0 < s.fLArG4Prop.GeVToElectrons)
    (hF : 0 < s.fieldAtStep x y z)
    (hmodbox : s.fUseModBoxRecomb = true →
      0 < s.fModBoxB ∧ 1 < s.fModBoxA + s.fModBoxB / s.fieldAtStep x y z)
    (hbirks : s.fUseModBoxRecomb = false →
      0 < s.fLArG4Prop.RecombA ∧ 0 ≤ s.fRecombk)
    (h1 : 0 ≤ e₁) (h12 : e₁ < e₂) :
    0 ≤ (s.CalculateIonization e₁ ds x y z).fNumIonElectrons ∧
    (s.CalculateIonization e₁ ds x y z).fNumIonElectrons <
      (s.CalculateIonization e₂ ds x y z).fNumIonElectrons := by
  have hK : (0 : ℝ) < s.fLArG4Prop.GeVToElectrons * 1e-3 :=
    mul_pos hG (by norm_num)
  cases hmode : s.fUseModBoxRecomb with
  | true =>
    obtain ⟨hb, hA⟩ := hmodbox hmode
    have hb' : 0 < s.fModBoxB / s.fieldAtStep x y z := div_pos hb hF
    rw [count_eq_modBoxPhi s e₁ ds x y z hmode hds.ne',
      count_eq_modBoxPhi s e₂ ds x y z hmode hds.ne']
    exact ⟨mul_nonneg hK.le (modBoxPhi_nonneg _ _ _ _ hds hb' hA h1),
      mul_lt_mul_of_pos_left (modBoxPhi_mono _ _ _ _ _ hds hb' hA h12) hK⟩
  | false =>
    obtain ⟨hA, hk⟩ := hbirks hmode
    have hc : 0 ≤ s.fRecombk / s.fieldAtStep x y z := div_nonneg hk hF.le
    rw [count_eq_birksPsi s e₁ ds x y z hmode, count_eq_birksPsi s e₂ ds x y z hmode]
    exact ⟨mul_nonneg hK.le (birksPsi_nonneg _ _ _ _ hds hA.le hc h1),
      mul_lt_mul_of_pos_left (birksPsi_mono _ _ _ _ _ hds hA hc h12) hK⟩

/-- Claim C7 witness: the amended statement instantiated on the Birks-mode
example state at step length 1, position (0, 0, 0) and energies 1 < 2. -/
theorem C7_witness :
    ((0 : ℝ) < 1 ∧ 0 < baseState.fLArG4Prop.GeVToElectrons ∧
      0 < baseState.fieldAtStep 0 0 0 ∧
      (baseState.fUseModBoxRecomb = true →
        0 < baseState.fModBoxB ∧
          1 < baseState.fModBoxA + baseState.fModBoxB / baseState.fieldAtStep 0 0 0) ∧
      (baseState.fUseModBoxRecomb = false →
        0 < baseState.fLArG4Prop.RecombA ∧ 0 ≤ baseState.fRecombk) ∧
      (0 : ℝ) ≤ 1 ∧ (1 : ℝ) < 2) ∧
    (0 ≤ (baseState.CalculateIonization 1 1 0 0 0).fNumIonElectrons ∧
      (baseState.CalculateIonization 1 1 0 0 0).fNumIonElectrons <
        (baseState.CalculateIonization 2 1 0 0 0).fNumIonElectrons) :=
  ⟨⟨by norm_num, by norm_num [baseState, lgpEx],
    by norm_num [baseState, detpEx, sceOffEx, ISCalculationSeparate.fieldAtStep,
      ISCalculationSeparate.EFieldAtStep],
    fun h => absurd h (by decide),
    fun _ => ⟨by norm_num [baseState, lgpEx], by norm_num [baseState]⟩,
    by norm_num, by norm_num⟩,
    C7_monotone baseState 1 0 0 0 1 2 (by norm_num)
      (by norm_num [baseState, lgpEx])
      (by norm_num [baseState, detpEx, sceOffEx, ISCalculationSeparate.fieldAtStep,
        ISCalculationSeparate.EFieldAtStep])
      (fun h => absurd h (by decide))
      (fun _ => ⟨by norm_num [baseState, lgpEx], by norm_num [baseState]⟩)
      (by norm_num) (by norm_num)⟩

end

end larg4
